import Mathlib

/-!
Verification of the day-planner core against its specification.

The development shallowly embeds the core pure functions of the repository:
the time parser (timeUtils), the task sorter (taskUtils), the validator
(validationUtils), the task repository operations (useTasks) and the
persistent-store error handling (useLocalStorage).  JavaScript strings are
modelled as Lean strings (their character lists for parsing), JS numbers
occurring here (hours, minutes, timestamps, weights) as naturals with
explicit Int subtraction where the source subtracts, thrown exceptions as
Except results, and the host localStorage/JSON functions as explicit
parameters of the functions that call them.
-/

namespace DayPlanner

/-! ### Time parsing utilities (timeUtils) -/

/-- Whitespace class of JavaScript regular expressions and String.prototype.trim
(space, tab, line terminators, and the Unicode space separators). -/
def isJsWs (c : Char) : Bool :=
  c == ' ' || c == '\t' || c == '\n' || c == '\r' || c == '\x0b' || c == '\x0c' ||
  c == ' ' || c == ' ' || ((' ' ≤ c) && (c ≤ ' ')) ||
  c == ' ' || c == ' ' || c == ' ' || c == ' ' ||
  c == '　' || c == '﻿'

/-- JavaScript String.prototype.trim on a character list: drop leading and
trailing whitespace. -/
def jsTrim (cs : List Char) : List Char :=
  ((cs.dropWhile isJsWs).reverse.dropWhile isJsWs).reverse

/-- String-valued version of jsTrim. -/
def jsTrimStr (s : String) : String := String.mk (jsTrim s.data)

/-- parseInt(ds, 10) on a nonempty all-digit string: its base-10 value. -/
def digitsVal (ds : List Char) : Nat :=
  ds.foldl (fun n c => 10 * n + (c.toNat - 48)) 0

/-- Shared anchored pattern of the two time regexes of parseTime:
(\d{1,2}):(\d{2}) at the start of the input.  The hour group is the maximal
leading digit run (it must have length 1 or 2 and be followed by a colon,
exactly the strings the backtracking regex accepts), the minute group is
exactly two digits.  Returns (hour digits, minute digits, rest of input). -/
def matchHM (cs : List Char) : Option (List Char × List Char × List Char) :=
  let hs := cs.takeWhile Char.isDigit
  let rest := cs.dropWhile Char.isDigit
  if hs.length = 1 || hs.length = 2 then
    match rest with
    | ':' :: c1 :: c2 :: r3 =>
      if c1.isDigit && c2.isDigit then some (hs, [c1, c2], r3) else none
    | _ => none
  else none

/-- The (AM|PM) alternative under the i flag: two characters spelling AM or
PM in any case.  Returns false for AM, true for PM. -/
def meridiemOf : List Char → Option Bool
  | [a, m] =>
    if (a == 'A' || a == 'a') && (m == 'M' || m == 'm') then some false
    else if (a == 'P' || a == 'p') && (m == 'M' || m == 'm') then some true
    else none
  | _ => none

/-- The full 12-hour regex of parseTime, anchored both ends:
(\d{1,2}):(\d{2})\s*(AM|PM) case-insensitively. -/
def matchAmPm (cs : List Char) : Option (List Char × List Char × Bool) :=
  match matchHM cs with
  | some (hs, ms, rest) =>
    match meridiemOf (rest.dropWhile isJsWs) with
    | some pm => some (hs, ms, pm)
    | none => none
  | none => none

/-- The full 24-hour regex of parseTime, anchored both ends: (\d{1,2}):(\d{2}). -/
def match24 (cs : List Char) : Option (List Char × List Char) :=
  match matchHM cs with
  | some (hs, ms, rest) => if rest = [] then some (hs, ms) else none
  | none => none

/-- Result record of parseTime (interface TimeParseResult). -/
structure TimeParseResult where
  success : Bool
  time : Option String := none
  error : Option String := none
deriving DecidableEq, Repr

/-- n.toString().padStart(2, '0'). -/
def padStart2 (n : Nat) : String :=
  let s := Nat.repr n
  if s.length < 2 then "0" ++ s else s

/-- Body of parseTime after the emptiness checks, on the trimmed input:
try the AM/PM grammar, then the 24-hour grammar.  The source's negative
range checks (hour < 0, minute < 0) are vacuous on Nat since the digit
groups only produce nonnegative values, exactly as parseInt of \d digits
does in the source. -/
def parseTimeCore (t : List Char) : TimeParseResult :=
  match matchAmPm t with
  | some (hs, ms, isPM) =>
    let hour := digitsVal hs
    let minute := digitsVal ms
    if hour < 1 || 12 < hour then
      ⟨false, none, some "Hour must be between 1 and 12 for AM/PM format"⟩
    else if 59 < minute then
      ⟨false, none, some "Minutes must be between 00 and 59"⟩
    else
      let hour2 := if isPM && hour != 12 then hour + 12
        else if !isPM && hour == 12 then 0 else hour
      ⟨true, some (padStart2 hour2 ++ ":" ++ padStart2 minute), none⟩
  | none =>
    match match24 t with
    | some (hs, ms) =>
      let hour := digitsVal hs
      let minute := digitsVal ms
      if 23 < hour then
        ⟨false, none, some "Hour must be between 00 and 23 for 24-hour format"⟩
      else if 59 < minute then
        ⟨false, none, some "Minutes must be between 00 and 59"⟩
      else
        ⟨true, some (padStart2 hour ++ ":" ++ padStart2 minute), none⟩
    | none =>
      ⟨false, none, some "Invalid time format. Use formats like \"9:30\", \"09:30\", \"9:30 AM\", or \"21:30\""⟩

/-- parseTime of timeUtils.  The initial falsiness/type test of the source
(!input) rejects exactly the empty string for string input. -/
def parseTime (input : String) : TimeParseResult :=
  if input = "" then ⟨false, none, some "Time is required"⟩
  else
    let t := jsTrim input.data
    if t = [] then ⟨false, none, some "Time is required"⟩
    else parseTimeCore t

/-- isValidTimeFormat of timeUtils: parses and the canonical form equals the
input verbatim. -/
def isValidTimeFormat (time : String) : Bool :=
  if time = "" then false
  else
    let r := parseTime time
    r.success && r.time == some time

/-- formatTimeForDisplay of timeUtils.  When isValidTimeFormat holds the
string is literally H1 H2 ':' M1 M2 (proved below), so the source's
split(':') produces exactly the two digit groups matched here. -/
def formatTimeForDisplay (time : String) : String :=
  if isValidTimeFormat time then
    match time.data with
    | [h1, h2, ':', m1, m2] =>
      let hour := digitsVal [h1, h2]
      let minute := digitsVal [m1, m2]
      let period := if 12 ≤ hour then "PM" else "AM"
      let displayHour := if hour == 0 then 12 else if 12 < hour then hour - 12 else hour
      Nat.repr displayHour ++ ":" ++ padStart2 minute ++ " " ++ period
    | _ => time
  else time

/-- The canonical zero-padded form of an hour/minute pair, the only shape a
successful parseTime ever returns. -/
def canonicalStr (h m : Nat) : String := padStart2 h ++ ":" ++ padStart2 m

/-- The 12-hour display hour of an hour value, as computed by
formatTimeForDisplay. -/
def dispHour (h : Nat) : Nat := if h = 0 then 12 else if 12 < h then h - 12 else h

/-! ### Task model and sorting (types, taskUtils) -/

/-- Priority enum of the task model. -/
inductive Priority where
  | low
  | medium
  | high
deriving DecidableEq, Repr

/-- Task record; priority is optional exactly as in the source. -/
structure Task where
  id : String
  time : String
  title : String
  priority : Option Priority := none
  createdAt : Nat
deriving DecidableEq, Repr

/-- PRIORITY_ORDER[p || 'low']: the weight used by the comparator, with a
missing priority falling back to low. -/
def priorityWeight : Option Priority → Nat
  | some .high => 3
  | some .medium => 2
  | some .low => 1
  | none => 1

/-- Strict lexicographic comparison of character lists by code point,
the order JavaScript string comparison induces on the canonical
digit-and-colon time strings. -/
def lexLt : List Char → List Char → Bool
  | _, [] => false
  | [], _ :: _ => true
  | a :: as, b :: bs => if a < b then true else if b < a then false else lexLt as bs

/-- a.localeCompare(b), modelled as code-point lexicographic comparison with
sign result.  For the canonical digit-and-colon time strings the comparator
is applied to, locale collation agrees with code-point order. -/
def jsCompare (a b : String) : Int :=
  if lexLt a.data b.data then -1 else if lexLt b.data a.data then 1 else 0

/-- The comparator passed to sort in sortTasks: time, then priority weight
descending, then createdAt ascending. -/
def compareTasks (a b : Task) : Int :=
  let timeComparison := jsCompare a.time b.time
  if timeComparison ≠ 0 then timeComparison
  else
    let aPriority := priorityWeight a.priority
    let bPriority := priorityWeight b.priority
    if aPriority ≠ bPriority then (bPriority : Int) - (aPriority : Int)
    else (a.createdAt : Int) - (b.createdAt : Int)

/-- The nonstrict order induced by the comparator: a may stay before b. -/
def taskLE (a b : Task) : Bool := compareTasks a b ≤ 0

/-- sortTasks of taskUtils: a stable sort of a copy of the array by
compareTasks (Array.prototype.sort is stable, as is mergeSort). -/
def sortTasks (tasks : List Task) : List Task := tasks.mergeSort taskLE

/-- One step of the isTaskListSorted loop: whether the adjacent pair
(prev, curr) passes all three ordering checks. -/
def sortedPairOk (prev curr : Task) : Bool :=
  let timeComparison := jsCompare prev.time curr.time
  if 0 < timeComparison then false
  else if timeComparison = 0 then
    let prevPriority := priorityWeight prev.priority
    let currPriority := priorityWeight curr.priority
    if prevPriority < currPriority then false
    else if prevPriority = currPriority && curr.createdAt < prev.createdAt then false
    else true
  else true

/-- isTaskListSorted of taskUtils: every adjacent pair passes the checks. -/
def isTaskListSorted : List Task → Bool
  | [] => true
  | [_] => true
  | a :: b :: rest => sortedPairOk a b && isTaskListSorted (b :: rest)

/-! ### Validation (validationUtils) -/

/-- ValidationError record: offending field and message. -/
structure ValidationError where
  field : String
  message : String
deriving DecidableEq, Repr

/-- TaskFormData record: the transient form input. -/
structure TaskFormData where
  time : String
  title : String
  priority : Option Priority := none
deriving DecidableEq, Repr

/-- validateTimeField: required check (empty or whitespace-only), then
delegation to parseTime, surfacing its error with the source's fallback. -/
def validateTimeField (time : String) : List ValidationError :=
  if time = "" || jsTrimStr time = "" then
    [⟨"time", "Time is required"⟩]
  else
    let parseResult := parseTime time
    if parseResult.success then []
    else [⟨"time", parseResult.error.getD "Invalid time format"⟩]

/-- validateTitleField.  The source's typeof guard always passes for a
string input; title.length counts UTF-16 units in JS and code points here,
which agree on the message strings compared below. -/
def validateTitleField (title : String) : List ValidationError :=
  let trimmedTitle := jsTrimStr title
  if trimmedTitle = "" then
    [⟨"title", "Title cannot be empty"⟩]
  else
    (if 200 < trimmedTitle.length then
       [⟨"title", "Title must be 200 characters or less"⟩]
     else []) ++
    (if trimmedTitle.length < 1 then
       [⟨"title", "Title must be at least 1 character long"⟩]
     else [])

/-- validatePriorityField: absent is valid, and a present value must be one
of the three enum members (always true for the typed embedding, kept with
the source's membership test). -/
def validatePriorityField (priority : Option Priority) : List ValidationError :=
  match priority with
  | none => []
  | some p =>
    if [Priority.low, Priority.medium, Priority.high].contains p then []
    else [⟨"priority", "Priority must be one of: low, medium, high"⟩]

/-- validateTaskFormData: concatenation of the three field validators. -/
def validateTaskFormData (formData : TaskFormData) : List ValidationError :=
  validateTimeField formData.time ++ validateTitleField formData.title ++
    validatePriorityField formData.priority

/-- sanitizeTaskFormData: trim time and title, then replace the time with
parseTime's canonical output when parsing succeeds (and the output string is
truthy, i.e. nonempty). -/
def sanitizeTaskFormData (formData : TaskFormData) : TaskFormData :=
  let sanitized : TaskFormData :=
    ⟨jsTrimStr formData.time, jsTrimStr formData.title, formData.priority⟩
  match parseTime sanitized.time with
  | ⟨true, some t, _⟩ => if t != "" then { sanitized with time := t } else sanitized
  | _ => sanitized

/-- Result record of validateAndSanitizeTaskFormData. -/
structure ValidationOutcome where
  sanitizedData : TaskFormData
  errors : List ValidationError
  isValid : Bool
deriving DecidableEq, Repr

/-- validateAndSanitizeTaskFormData: sanitize first, then validate the
sanitized data; isValid is emptiness of the error list. -/
def validateAndSanitizeTaskFormData (formData : TaskFormData) : ValidationOutcome :=
  let sanitizedData := sanitizeTaskFormData formData
  let errors := validateTaskFormData sanitizedData
  ⟨sanitizedData, errors, errors.length == 0⟩

/-! ### Task repository (useTasks)

The hook's collection state is passed explicitly; a thrown Error is an
Except.error carrying the message, and the two impure inputs of addTask
(generateTaskId and Date.now) are explicit arguments. -/

/-- addTask: validate and sanitize, abort on failure with the joined
messages, otherwise append the new task and sort. -/
def addTask (tasks : List Task) (taskData : TaskFormData) (freshId : String)
    (now : Nat) : Except String (List Task) :=
  let validationResult := validateAndSanitizeTaskFormData taskData
  if !validationResult.isValid then
    .error ("Validation failed: " ++
      String.intercalate ", " (validationResult.errors.map (fun e => e.message)))
  else
    let sanitizedData := validationResult.sanitizedData
    let newTask : Task :=
      ⟨freshId, sanitizedData.time, sanitizedData.title, sanitizedData.priority, now⟩
    .ok (sortTasks (tasks ++ [newTask]))

/-- The findIndex-and-replace step of updateTask: replace the first task
whose id matches, keeping its id and createdAt; none when no id matches. -/
def replaceFirstById (id : String) (s : TaskFormData) : List Task → Option (List Task)
  | [] => none
  | task :: rest =>
    if task.id == id then
      some ({ task with time := s.time, title := s.title, priority := s.priority } :: rest)
    else (replaceFirstById id s rest).map (task :: ·)

/-- updateTask: validate and sanitize, abort on failure; abort with the
not-found message when the id is absent; otherwise replace and re-sort. -/
def updateTask (tasks : List Task) (id : String) (taskData : TaskFormData) :
    Except String (List Task) :=
  let validationResult := validateAndSanitizeTaskFormData taskData
  if !validationResult.isValid then
    .error ("Validation failed: " ++
      String.intercalate ", " (validationResult.errors.map (fun e => e.message)))
  else
    match replaceFirstById id validationResult.sanitizedData tasks with
    | none => .error ("Task with ID \"" ++ id ++ "\" not found")
    | some updatedTasks => .ok (sortTasks updatedTasks)

/-- deleteTask: abort with the not-found message when the id is absent,
otherwise remove every task with that id (no re-sort). -/
def deleteTask (tasks : List Task) (id : String) : Except String (List Task) :=
  if !(tasks.any (fun task => task.id == id)) then
    .error ("Task with ID \"" ++ id ++ "\" not found")
  else
    .ok (tasks.filter (fun task => !(task.id == id)))

/-- clearAllTasks: unconditionally empty the collection. -/
def clearAllTasks (_tasks : List Task) : List Task := []

/-- Collection observed after an operation: a thrown error aborts the state
updater, so the previous collection stays in place. -/
def applyResult (tasks : List Task) (r : Except String (List Task)) : List Task :=
  match r with
  | .ok newTasks => newTasks
  | .error _ => tasks

/-- The invalid form data of the specification's example. -/
def invalidSampleFormData : TaskFormData := ⟨"25:00", "", some .medium⟩

/-! ### Persistent store (useLocalStorage)

The hook state is the in-memory mirror plus the reported error.  The host
storage and JSON are modelled as explicit outcomes: setItem either succeeds
or throws a given Error (name and message), getItem returns an optional raw
string, JSON.parse is a decode function returning none when it throws, and
removeItem may throw. -/

/-- A thrown JavaScript Error: its name and message. -/
structure JsError where
  name : String
  message : String
deriving DecidableEq, Repr

/-- haystack-list version of String.prototype.includes. -/
def listIncludes (needle : List Char) : List Char → Bool
  | [] => needle.isEmpty
  | c :: rest => needle.isPrefixOf (c :: rest) || listIncludes needle rest

/-- s.includes(sub). -/
def strIncludes (s sub : String) : Bool := listIncludes sub.data s.data

/-- The error classification of setValue's catch block. -/
def classifySetError (e : JsError) : String :=
  if e.name == "QuotaExceededError" || strIncludes e.message "quota" then
    "Storage quota exceeded. Please clear some data."
  else if strIncludes e.message "access" then
    "Unable to access localStorage. Data will not persist."
  else
    "Failed to save data to localStorage"

/-- In-memory state of the useLocalStorage hook. -/
structure StorageHookState (T : Type) where
  storedValue : T
  error : Option String
deriving Repr

/-- setValue of useLocalStorage: the mirror always becomes the written
value; a successful setItem clears the error, a throwing one stores the
classified message. -/
def setValue {T : Type} (outcome : Option JsError) (value : T)
    (_st : StorageHookState T) : StorageHookState T :=
  match outcome with
  | none => { storedValue := value, error := none }
  | some e => { storedValue := value, error := some (classifySetError e) }

/-- Observable result of the load effect of useLocalStorage: the in-memory
value, the reported error, and whether the key was removed from the store. -/
structure LoadResult (T : Type) where
  value : T
  error : Option String
  removedKey : Bool
deriving Repr

/-- The load effect of useLocalStorage.  The if (item) guard skips both the
absent key (null) and the falsy empty string; a decode failure (JSON.parse
throw) removes the key and reports corruption, unless removeItem itself
throws, in which case the inaccessible message is reported instead. -/
def loadFromStorage {T : Type} (initialValue : T) (item : Option String)
    (decode : String → Option T) (removeThrows : Bool) : LoadResult T :=
  match item with
  | none => ⟨initialValue, none, false⟩
  | some raw =>
    if raw = "" then ⟨initialValue, none, false⟩
    else
      match decode raw with
      | some parsedValue => ⟨parsedValue, none, false⟩
      | none =>
        if removeThrows then ⟨initialValue, some "Unable to access localStorage", false⟩
        else ⟨initialValue, some "Data was corrupted and has been reset", true⟩

/-! ### Order facts about the comparator -/

lemma lexLt_iff : ∀ x y : List Char, lexLt x y = true ↔ x < y
  | [], [] => by
    simp only [lexLt, Bool.false_eq_true, false_iff]
    intro h; cases h
  | [], b :: bs => by
    simp only [lexLt, true_iff]
    exact List.Lex.nil
  | a :: as, [] => by
    simp only [lexLt, Bool.false_eq_true, false_iff]
    intro h; cases h
  | a :: as, b :: bs => by
    simp only [lexLt]
    rcases lt_trichotomy a b with h | h | h
    · simp only [h, if_true, true_iff]
      exact List.Lex.rel h
    · subst h
      simp only [lt_irrefl, if_false, reduceIte, lexLt_iff as bs]
      constructor
      · intro htail; exact List.Lex.cons htail
      · intro hlt
        cases hlt with
        | cons htail => exact htail
        | rel hab => exact absurd hab (lt_irrefl a)
    · have h1 : ¬ a < b := asymm h
      simp only [h1, if_false, h, if_true, reduceIte, Bool.false_eq_true, false_iff]
      intro hlt
      cases hlt with
      | cons htail => exact absurd h (lt_irrefl _)
      | rel hab => exact absurd hab h1

/-- The boolean comparison agrees with the lexicographic string order. -/
lemma lexLt_iff_lt (a b : String) : lexLt a.data b.data = true ↔ a < b := by
  rw [String.lt_iff_toList_lt]
  exact lexLt_iff a.data b.data

lemma jsCompare_of_lt {a b : String} (h : a < b) : jsCompare a b = -1 := by
  have h1 : lexLt a.data b.data = true := (lexLt_iff_lt a b).2 h
  simp [jsCompare, h1]

lemma jsCompare_of_eq {a b : String} (h : a = b) : jsCompare a b = 0 := by
  subst h
  have h1 : lexLt a.data a.data = false := by
    rw [Bool.eq_false_iff]
    intro hc
    exact absurd ((lexLt_iff_lt a a).1 hc) (lt_irrefl a)
  simp [jsCompare, h1]

lemma jsCompare_of_gt {a b : String} (h : b < a) : jsCompare a b = 1 := by
  have h1 : lexLt b.data a.data = true := (lexLt_iff_lt b a).2 h
  have h2 : lexLt a.data b.data = false := by
    rw [Bool.eq_false_iff]
    intro hc
    exact absurd ((lexLt_iff_lt a b).1 hc) (asymm h)
  simp [jsCompare, h1, h2]

/-- Propositional description of the comparator's nonstrict order. -/
lemma taskLE_iff (a b : Task) : taskLE a b = true ↔
    (a.time < b.time ∨ (a.time = b.time ∧
      (priorityWeight b.priority < priorityWeight a.priority ∨
        (priorityWeight a.priority = priorityWeight b.priority ∧
          a.createdAt ≤ b.createdAt)))) := by
  unfold taskLE compareTasks
  rcases lt_trichotomy a.time b.time with h | h | h
  · rw [jsCompare_of_lt h]
    simp [h]
  · rw [jsCompare_of_eq h]
    simp only [ne_eq, not_true_eq_false, reduceIte, h, lt_self_iff_false, false_or,
      eq_self_iff_true, true_and, decide_eq_true_eq]
    split_ifs with hw
    · omega
    · omega
  · rw [jsCompare_of_gt h]
    have hnlt : ¬ a.time < b.time := asymm h
    have hne : a.time ≠ b.time := (ne_of_lt h).symm
    simp [hnlt, hne]

lemma taskLE_total : ∀ a b : Task, (taskLE a b || taskLE b a) = true := by
  intro a b
  simp only [Bool.or_eq_true, taskLE_iff]
  rcases lt_trichotomy a.time b.time with h | h | h
  · exact Or.inl (Or.inl h)
  · have : (priorityWeight b.priority < priorityWeight a.priority ∨
        (priorityWeight a.priority = priorityWeight b.priority ∧
          a.createdAt ≤ b.createdAt)) ∨
        (priorityWeight a.priority < priorityWeight b.priority ∨
        (priorityWeight b.priority = priorityWeight a.priority ∧
          b.createdAt ≤ a.createdAt)) := by omega
    rcases this with hp | hp
    · exact Or.inl (Or.inr ⟨h, hp⟩)
    · exact Or.inr (Or.inr ⟨h.symm, hp⟩)
  · exact Or.inr (Or.inl h)

lemma taskLE_trans : ∀ a b c : Task,
    taskLE a b = true → taskLE b c = true → taskLE a c = true := by
  intro a b c hab hbc
  rw [taskLE_iff] at hab hbc ⊢
  rcases hab with h1 | ⟨e1, p1⟩ <;> rcases hbc with h2 | ⟨e2, p2⟩
  · exact Or.inl (lt_trans h1 h2)
  · exact Or.inl (e2 ▸ h1)
  · refine Or.inl ?_; rw [e1]; exact h2
  · refine Or.inr ⟨e1.trans e2, ?_⟩; omega

/-- The adjacent-pair check of isTaskListSorted accepts exactly the pairs
the comparator weakly orders. -/
lemma sortedPairOk_iff (a b : Task) : sortedPairOk a b = true ↔ taskLE a b = true := by
  rw [taskLE_iff]
  unfold sortedPairOk
  rcases lt_trichotomy a.time b.time with h | h | h
  · rw [jsCompare_of_lt h]
    simp [h]
  · rw [jsCompare_of_eq h]
    simp only [lt_self_iff_false, reduceIte, eq_self_iff_true, if_true, h, false_or,
      true_and, Bool.and_eq_true, decide_eq_true_eq]
    split_ifs with h1 h2 <;> simp_all <;> omega
  · rw [jsCompare_of_gt h]
    have hnlt : ¬ a.time < b.time := asymm h
    have hne : a.time ≠ b.time := (ne_of_lt h).symm
    simp [hnlt, hne]

lemma isTaskListSorted_of_pairwise :
    ∀ l : List Task, List.Pairwise (fun a b => taskLE a b = true) l →
      isTaskListSorted l = true
  | [], _ => rfl
  | [_], _ => rfl
  | a :: b :: rest, h => by
    have hab : taskLE a b = true := (List.pairwise_cons.1 h).1 b (by simp)
    have htail := isTaskListSorted_of_pairwise (b :: rest) (List.pairwise_cons.1 h).2
    simp only [isTaskListSorted, Bool.and_eq_true]
    exact ⟨(sortedPairOk_iff a b).2 hab, htail⟩

lemma pairwise_of_isTaskListSorted :
    ∀ l : List Task, isTaskListSorted l = true →
      List.Pairwise (fun a b => taskLE a b = true) l
  | [], _ => List.Pairwise.nil
  | [a], _ => List.pairwise_singleton _ a
  | a :: b :: rest, h => by
    simp only [isTaskListSorted, Bool.and_eq_true] at h
    have hab : taskLE a b = true := (sortedPairOk_iff a b).1 h.1
    have htail := pairwise_of_isTaskListSorted (b :: rest) h.2
    refine List.pairwise_cons.2 ⟨?_, htail⟩
    intro x hx
    rcases List.mem_cons.1 hx with rfl | hx
    · exact hab
    · exact taskLE_trans a b x hab ((List.pairwise_cons.1 htail).1 x hx)

/-- The output of sortTasks is pairwise weakly ordered by the comparator. -/
lemma sortTasks_pairwise (l : List Task) :
    List.Pairwise (fun a b => taskLE a b = true) (sortTasks l) :=
  List.sorted_mergeSort taskLE_trans taskLE_total l

lemma sortTasks_isSorted (l : List Task) : isTaskListSorted (sortTasks l) = true :=
  isTaskListSorted_of_pairwise _ (sortTasks_pairwise l)

lemma isTaskListSorted_filter (l : List Task) (p : Task → Bool)
    (h : isTaskListSorted l = true) : isTaskListSorted (l.filter p) = true :=
  isTaskListSorted_of_pairwise _
    ((pairwise_of_isTaskListSorted l h).sublist (List.filter_sublist l))

/-! ### Facts about trimming and the parser -/

lemma dropWhile_dropWhile {α : Type} (p : α → Bool) (l : List α) :
    (l.dropWhile p).dropWhile p = l.dropWhile p := by
  induction l with
  | nil => rfl
  | cons a t ih =>
    by_cases h : p a
    · simp [List.dropWhile_cons, h, ih]
    · simp [List.dropWhile_cons, h]

lemma dropWhile_of_prefix {α : Type} (p : α → Bool) {X A : List α} (hX : X <+: A)
    (hA : A.dropWhile p = A) : X.dropWhile p = X := by
  cases X with
  | nil => rfl
  | cons x t =>
    obtain ⟨rest, hr⟩ := hX
    have hx : ¬ p x = true := by
      intro hp
      rw [← hr, List.cons_append, List.dropWhile_cons, if_pos hp] at hA
      have hlen := congrArg List.length hA
      have hle := (List.dropWhile_suffix (l := t ++ rest) p).length_le
      simp [List.length_append] at hlen hle
      omega
    rw [List.dropWhile_cons, if_neg hx]

/-- Trimming is idempotent. -/
lemma jsTrim_idem (l : List Char) : jsTrim (jsTrim l) = jsTrim l := by
  unfold jsTrim
  set A := l.dropWhile isJsWs with hA
  set w := A.reverse.dropWhile isJsWs with hw
  have hpre : w.reverse <+: A := by
    have hsuf : w <:+ A.reverse := List.dropWhile_suffix _
    have h2 := hsuf.reverse
    simpa using h2
  have h1 : w.reverse.dropWhile isJsWs = w.reverse :=
    dropWhile_of_prefix isJsWs hpre (by rw [hA]; exact dropWhile_dropWhile isJsWs l)
  rw [h1, List.reverse_reverse, hw, dropWhile_dropWhile]

lemma jsTrimStr_idem (s : String) : jsTrimStr (jsTrimStr s) = jsTrimStr s := by
  simp [jsTrimStr, jsTrim_idem]

lemma jsTrimStr_eq_empty_iff (s : String) : jsTrimStr s = "" ↔ jsTrim s.data = [] := by
  simp [jsTrimStr, String.ext_iff]

/-- parseTime only looks at the trimmed input, so pre-trimming does not
change its result. -/
lemma parseTime_jsTrimStr (s : String) : parseTime (jsTrimStr s) = parseTime s := by
  unfold parseTime
  by_cases hs : s = ""
  · subst hs; rfl
  · by_cases ht : jsTrim s.data = []
    · have h2 : jsTrimStr s = "" := (jsTrimStr_eq_empty_iff s).2 ht
      simp [hs, ht, h2]
    · have h2 : ¬ jsTrimStr s = "" := by
        intro h; exact ht ((jsTrimStr_eq_empty_iff s).1 h)
      have h3 : (jsTrimStr s).data = jsTrim s.data := rfl
      simp [hs, ht, h2, h3, jsTrim_idem]

/-- A successful parse always returns a canonical in-range zero-padded
time and no error. -/
lemma parseTimeCore_success_shape (t : List Char)
    (h : (parseTimeCore t).success = true) :
    ∃ hh mm, hh < 24 ∧ mm < 60 ∧
      parseTimeCore t = ⟨true, some (canonicalStr hh mm), none⟩ := by
  unfold parseTimeCore at h ⊢
  cases hm : matchAmPm t with
  | some x =>
    obtain ⟨hs, ms, pm⟩ := x
    rw [hm] at h
    dsimp only at h ⊢
    split_ifs at h ⊢ with h1 h2 h3 h4 <;>
      first
        | (simp at h; done)
        | (simp only [Bool.or_eq_true, decide_eq_true_eq, not_or, not_lt] at h1 h2
           try simp only [Bool.and_eq_true, bne_iff_ne, ne_eq] at h3
           simp only [canonicalStr]
           exact ⟨_, _, by omega, by omega, rfl⟩)
  | none =>
    rw [hm] at h
    dsimp only at h ⊢
    cases h24 : match24 t with
    | some x =>
      obtain ⟨hs, ms⟩ := x
      rw [h24] at h
      dsimp only at h ⊢
      split_ifs at h ⊢ with h1 h2
      simp only [not_lt] at h1 h2
      simp only [canonicalStr]
      exact ⟨_, _, by omega, by omega, rfl⟩
    | none =>
      rw [h24] at h
      simp at h

/-- Lifting of the shape fact to parseTime. -/
lemma parseTime_success_shape (s : String)
    (h : (parseTime s).success = true) :
    ∃ hh mm, hh < 24 ∧ mm < 60 ∧
      parseTime s = ⟨true, some (canonicalStr hh mm), none⟩ := by
  unfold parseTime at h ⊢
  by_cases hs : s = ""
  · simp [hs] at h
  · by_cases ht : jsTrim s.data = []
    · simp [hs, ht] at h
    · simp only [hs, ht, if_false, reduceIte] at h ⊢
      exact parseTimeCore_success_shape _ h

/-- A collection in which no task has the requested id cannot be updated. -/
lemma replaceFirstById_eq_none (id : String) (s : TaskFormData) :
    ∀ tasks : List Task, (∀ t ∈ tasks, t.id ≠ id) →
      replaceFirstById id s tasks = none := by
  intro tasks
  induction tasks with
  | nil => intro _; rfl
  | cons task rest ih =>
    intro h
    have h1 : ¬ task.id == id := by
      simp only [beq_iff_eq]
      exact h task (by simp)
    simp only [replaceFirstById, h1, if_false, Bool.false_eq_true, reduceIte]
    rw [ih (fun t ht => h t (List.mem_cons_of_mem _ ht))]
    rfl

/-! ### The ordering the specification describes -/

/-- The total order of the specification's sorting claim: ascending time,
then descending priority weight, then ascending creation time. -/
def claimOrder (a b : Task) : Prop :=
  a.time ≤ b.time ∧
  (a.time = b.time → priorityWeight b.priority ≤ priorityWeight a.priority) ∧
  (a.time = b.time → priorityWeight a.priority = priorityWeight b.priority →
    a.createdAt ≤ b.createdAt)

lemma claimOrder_iff (a b : Task) : claimOrder a b ↔ taskLE a b = true := by
  rw [taskLE_iff]
  unfold claimOrder
  constructor
  · rintro ⟨h1, h2, h3⟩
    rcases lt_or_eq_of_le h1 with hlt | heq
    · exact Or.inl hlt
    · refine Or.inr ⟨heq, ?_⟩
      have hw := h2 heq
      by_cases hww : priorityWeight a.priority = priorityWeight b.priority
      · exact Or.inr ⟨hww, h3 heq hww⟩
      · exact Or.inl (by omega)
  · rintro (h | ⟨e, hp⟩)
    · refine ⟨le_of_lt h, ?_, ?_⟩
      · intro he; exact absurd (he ▸ h) (lt_irrefl _)
      · intro he _; exact absurd (he ▸ h) (lt_irrefl _)
    · exact ⟨le_of_eq e, fun _ => by omega, fun _ _ => by omega⟩

/-! ### Claim theorems -/

/-- C1: sorted-always invariant.  For a collection satisfying the Task
Sorter's total order, the collection observed after any single successful
repository mutation again satisfies it: addTask and updateTask re-sort
synchronously, clearAllTasks yields the empty list, and deleteTask performs
no re-sort yet preserves sortedness because removal from a sorted list
keeps it sorted. -/
theorem C1_sorted_after_every_mutation (tasks : List Task)
    (hs : isTaskListSorted tasks = true) :
    (∀ fd freshId now ts', addTask tasks fd freshId now = .ok ts' →
      isTaskListSorted ts' = true) ∧
    (∀ id fd ts', updateTask tasks id fd = .ok ts' →
      isTaskListSorted ts' = true) ∧
    (∀ id ts', deleteTask tasks id = .ok ts' →
      isTaskListSorted ts' = true) ∧
    clearAllTasks tasks = [] ∧ isTaskListSorted (clearAllTasks tasks) = true := by
  refine ⟨?_, ?_, ?_, rfl, rfl⟩
  · intro fd freshId now ts' hadd
    unfold addTask at hadd
    dsimp only at hadd
    split_ifs at hadd
    all_goals
      first
        | exact Except.noConfusion hadd
        | (injection hadd with h2; subst h2; exact sortTasks_isSorted _)
  · intro id fd ts' hupd
    unfold updateTask at hupd
    dsimp only at hupd
    split_ifs at hupd
    all_goals
      first
        | exact Except.noConfusion hupd
        | (cases hrep : replaceFirstById id
              (validateAndSanitizeTaskFormData fd).sanitizedData tasks with
           | none =>
             rw [hrep] at hupd
             exact Except.noConfusion hupd
           | some updated =>
             rw [hrep] at hupd
             injection hupd with h2
             subst h2
             exact sortTasks_isSorted _)
  · intro id ts' hdel
    unfold deleteTask at hdel
    split_ifs at hdel
    all_goals
      first
        | exact Except.noConfusion hdel
        | (injection hdel with h2; subst h2; exact isTaskListSorted_filter _ _ hs)

/-- Closed instance of C1: deleting an existing id from a concrete sorted
collection leaves a sorted collection. -/
theorem C1_sorted_after_every_mutation_witness :
    isTaskListSorted [Task.mk "b" "10:00" "B" none 2] = true :=
  (C1_sorted_after_every_mutation
      [Task.mk "a" "09:00" "A" (some .high) 1, Task.mk "b" "10:00" "B" none 2]
      (by decide)).2.2.1 "a" [Task.mk "b" "10:00" "B" none 2] (by rfl)

/-- C2: sortTasks returns the same tasks ordered ascending by lexicographic
time, then descending priority weight (missing priority weighs 1), then
ascending createdAt; fully tied tasks keep their original relative order;
and the three-task example at times 14:00, 09:00, 12:00 comes out in time
order 09:00, 12:00, 14:00. -/
theorem C2_sortTasks_total_order (l : List Task) :
    (sortTasks l).Perm l ∧
    List.Pairwise claimOrder (sortTasks l) ∧
    (∀ a b : Task, a.time = b.time →
      priorityWeight a.priority = priorityWeight b.priority →
      a.createdAt = b.createdAt →
      [a, b].Sublist l → [a, b].Sublist (sortTasks l)) ∧
    (sortTasks
        [Task.mk "t1" "14:00" "later" (some .medium) 1,
         Task.mk "t2" "09:00" "early" (some .medium) 2,
         Task.mk "t3" "12:00" "noon" (some .medium) 3]).map Task.time =
      ["09:00", "12:00", "14:00"] := by
  refine ⟨List.mergeSort_perm l taskLE, ?_, ?_,
    by simp [sortTasks, List.mergeSort, taskLE, compareTasks, jsCompare, lexLt,
      priorityWeight, List.merge]⟩
  · exact (sortTasks_pairwise l).imp (fun hab => (claimOrder_iff _ _).2 hab)
  · intro a b ht hw hc hsub
    refine List.pair_sublist_mergeSort taskLE_trans taskLE_total ?_ hsub
    rw [taskLE_iff]
    exact Or.inr ⟨ht, Or.inr ⟨hw, le_of_eq hc⟩⟩
/-- Closed instance of C2: a fully tied pair keeps its relative order. -/
theorem C2_sortTasks_total_order_witness :
    [Task.mk "x" "09:00" "X" none 5, Task.mk "y" "09:00" "Y" (some .low) 5].Sublist
      (sortTasks [Task.mk "x" "09:00" "X" none 5,
        Task.mk "y" "09:00" "Y" (some .low) 5]) :=
  (C2_sortTasks_total_order
      [Task.mk "x" "09:00" "X" none 5, Task.mk "y" "09:00" "Y" (some .low) 5]).2.2.1
    (Task.mk "x" "09:00" "X" none 5) (Task.mk "y" "09:00" "Y" (some .low) 5)
    rfl rfl rfl (List.Sublist.refl _)

/-- The 12-hour conversion rule exactly as the specification words it:
hour must be 1 to 12 and minute at most 59, 12 AM maps to hour 0, 12 PM
stays 12, other PM hours add 12, AM hours stay. -/
def amPmRule (hour minute : Nat) (pm : Bool) : TimeParseResult :=
  if hour < 1 ∨ 12 < hour then
    ⟨false, none, some "Hour must be between 1 and 12 for AM/PM format"⟩
  else if 59 < minute then
    ⟨false, none, some "Minutes must be between 00 and 59"⟩
  else
    let hour24 :=
      if pm then (if hour = 12 then 12 else hour + 12)
      else (if hour = 12 then 0 else hour)
    ⟨true, some (padStart2 hour24 ++ ":" ++ padStart2 minute), none⟩

/-- C4: parseTime converts meridiem input by the stated rule (12 AM to 0,
12 PM to 12, other PM hours add 12, AM hours kept; out-of-range meridiem
hour or minute fails with the corresponding range error), and the five
concrete examples behave as stated. -/
theorem C4_parseTime_meridiem_rule :
    parseTime "9:30 PM" = ⟨true, some "21:30", none⟩ ∧
    parseTime "12:00 AM" = ⟨true, some "00:00", none⟩ ∧
    parseTime "12:00 PM" = ⟨true, some "12:00", none⟩ ∧
    parseTime "25:00" =
      ⟨false, none, some "Hour must be between 00 and 23 for 24-hour format"⟩ ∧
    parseTime "09:60" = ⟨false, none, some "Minutes must be between 00 and 59"⟩ ∧
    (∀ (s : String) (hs ms : List Char) (pm : Bool),
      matchAmPm (jsTrim s.data) = some (hs, ms, pm) →
      parseTime s = amPmRule (digitsVal hs) (digitsVal ms) pm) := by
  refine ⟨by decide, by decide, by decide, by decide, by decide, ?_⟩
  intro s hs ms pm hm
  have hsne : s ≠ "" := by
    rintro rfl
    simp [show matchAmPm (jsTrim ("" : String).data) = none from rfl] at hm
  have htne : jsTrim s.data ≠ [] := by
    intro h0
    rw [h0] at hm
    simp [matchAmPm, matchHM] at hm
  unfold parseTime
  rw [if_neg hsne]
  show (if jsTrim s.data = [] then _ else parseTimeCore (jsTrim s.data)) = _
  rw [if_neg htne]
  unfold parseTimeCore amPmRule
  rw [hm]
  dsimp only
  by_cases h1 : digitsVal hs < 1 ∨ 12 < digitsVal hs
  · rw [if_pos (by simp only [Bool.or_eq_true, decide_eq_true_eq]; exact h1), if_pos h1]
  · rw [if_neg (by simp only [Bool.or_eq_true, decide_eq_true_eq]; exact h1), if_neg h1]
    by_cases h2 : 59 < digitsVal ms
    · rw [if_pos h2, if_pos h2]
    · rw [if_neg h2, if_neg h2]
      have hhour : (if (pm && digitsVal hs != 12) = true then digitsVal hs + 12
          else if (!pm && digitsVal hs == 12) = true then 0 else digitsVal hs) =
          (if pm = true then (if digitsVal hs = 12 then 12 else digitsVal hs + 12)
          else (if digitsVal hs = 12 then 0 else digitsVal hs)) := by
        cases pm <;> by_cases h12 : digitsVal hs = 12 <;> simp [h12]
      rw [hhour]

/-- Closed instance of C4: the meridiem rule applied to the 9:30 PM input. -/
theorem C4_parseTime_meridiem_rule_witness :
    parseTime "9:30 PM" = amPmRule (digitsVal ['9']) (digitsVal ['3', '0']) true :=
  C4_parseTime_meridiem_rule.2.2.2.2.2 "9:30 PM" ['9'] ['3', '0'] true (by decide)

/-- C5: a Persistent Store write always updates the in-memory mirror, a
successful write clears the error, and a throwing write reports exactly one
of the three classified kinds (quota, access, generic), whose messages are
pairwise distinct. -/
theorem C5_setValue_classification (T : Type) (outcome : Option JsError)
    (value : T) (st : StorageHookState T) :
    (setValue outcome value st).storedValue = value ∧
    (outcome = none → (setValue outcome value st).error = none) ∧
    (∀ e, outcome = some e →
      (setValue outcome value st).error = some (classifySetError e)) ∧
    (∀ e : JsError,
      (classifySetError e = "Storage quota exceeded. Please clear some data." ↔
        (e.name = "QuotaExceededError" ∨ strIncludes e.message "quota" = true)) ∧
      (classifySetError e = "Unable to access localStorage. Data will not persist." ↔
        (¬(e.name = "QuotaExceededError" ∨ strIncludes e.message "quota" = true) ∧
          strIncludes e.message "access" = true)) ∧
      (classifySetError e = "Failed to save data to localStorage" ↔
        (¬(e.name = "QuotaExceededError" ∨ strIncludes e.message "quota" = true) ∧
          ¬ strIncludes e.message "access" = true))) ∧
    ("Storage quota exceeded. Please clear some data." ≠
        "Unable to access localStorage. Data will not persist." ∧
      "Storage quota exceeded. Please clear some data." ≠
        "Failed to save data to localStorage" ∧
      "Unable to access localStorage. Data will not persist." ≠
        "Failed to save data to localStorage") := by
  refine ⟨?_, ?_, ?_, ?_, by decide, by decide, by decide⟩
  · cases outcome <;> rfl
  · rintro rfl; rfl
  · rintro e rfl; rfl
  · intro e
    by_cases hq : e.name = "QuotaExceededError" ∨ strIncludes e.message "quota" = true
    · have hc : classifySetError e = "Storage quota exceeded. Please clear some data." := by
        unfold classifySetError
        rw [if_pos (by simp only [Bool.or_eq_true, beq_iff_eq]; exact hq)]
      rw [hc]
      refine ⟨iff_of_true rfl hq, iff_of_false (by decide) ?_, iff_of_false (by decide) ?_⟩
      · rintro ⟨hn, -⟩; exact hn hq
      · rintro ⟨hn, -⟩; exact hn hq
    · by_cases ha : strIncludes e.message "access" = true
      · have hc : classifySetError e =
            "Unable to access localStorage. Data will not persist." := by
          unfold classifySetError
          rw [if_neg (by simp only [Bool.or_eq_true, beq_iff_eq]; exact hq), if_pos ha]
        rw [hc]
        refine ⟨iff_of_false (by decide) hq, iff_of_true rfl ⟨hq, ha⟩,
          iff_of_false (by decide) ?_⟩
        rintro ⟨-, hna⟩; exact hna ha
      · have hc : classifySetError e = "Failed to save data to localStorage" := by
          unfold classifySetError
          rw [if_neg (by simp only [Bool.or_eq_true, beq_iff_eq]; exact hq), if_neg ha]
        rw [hc]
        exact ⟨iff_of_false (by decide) hq,
          iff_of_false (by decide) (fun h => ha h.2),
          iff_of_true rfl ⟨hq, ha⟩⟩

/-- Closed instance of C5: a quota-named error is reported as the quota
message while the mirror keeps the written value. -/
theorem C5_setValue_classification_witness :
    (setValue (some (JsError.mk "QuotaExceededError" "boom")) (3 : Nat)
        (StorageHookState.mk 0 none)).error =
      some (classifySetError (JsError.mk "QuotaExceededError" "boom")) :=
  (C5_setValue_classification Nat (some (JsError.mk "QuotaExceededError" "boom")) 3
      (StorageHookState.mk 0 none)).2.2.1 (JsError.mk "QuotaExceededError" "boom") rfl

/-- C6: failed repository operations are atomic: a validation failure in
addTask or updateTask, or a missing id in updateTask or deleteTask, leaves
the observed collection exactly as it was; and the specification's example
(time 25:00, empty title) fails with at least two errors, one for the time
field and one for the title field. -/
theorem C6_failed_mutations_atomic (tasks : List Task) (fd : TaskFormData)
    (freshId : String) (now : Nat) (id : String) :
    ((validateAndSanitizeTaskFormData fd).isValid = false →
      applyResult tasks (addTask tasks fd freshId now) = tasks ∧
      applyResult tasks (updateTask tasks id fd) = tasks) ∧
    ((∀ t ∈ tasks, t.id ≠ id) →
      applyResult tasks (updateTask tasks id fd) = tasks ∧
      applyResult tasks (deleteTask tasks id) = tasks) ∧
    ((validateAndSanitizeTaskFormData invalidSampleFormData).isValid = false ∧
      2 ≤ (validateAndSanitizeTaskFormData invalidSampleFormData).errors.length ∧
      ((validateAndSanitizeTaskFormData invalidSampleFormData).errors.any
        (fun e => e.field == "time")) = true ∧
      ((validateAndSanitizeTaskFormData invalidSampleFormData).errors.any
        (fun e => e.field == "title")) = true ∧
      applyResult tasks (addTask tasks invalidSampleFormData freshId now) = tasks) := by
  refine ⟨?_, ?_, by decide, by decide, by decide, by decide, ?_⟩
  · intro hv
    constructor
    · simp [addTask, hv, applyResult]
    · simp [updateTask, hv, applyResult]
  · intro hid
    constructor
    · cases hval : (validateAndSanitizeTaskFormData fd).isValid
      · simp [updateTask, hval, applyResult]
      · simp only [updateTask, hval, Bool.not_true, Bool.false_eq_true, if_false,
          reduceIte]
        rw [replaceFirstById_eq_none id _ tasks hid]
        rfl
    · have hany : tasks.any (fun task => task.id == id) = false := by
        rw [Bool.eq_false_iff]
        intro hcontra
        obtain ⟨t, ht, hteq⟩ := List.any_eq_true.1 hcontra
        exact hid t ht (by simpa using hteq)
      simp [deleteTask, hany, applyResult]
  · have hv : (validateAndSanitizeTaskFormData invalidSampleFormData).isValid = false := by
      decide
    simp [addTask, hv, applyResult]

/-- Closed instance of C6: deleting a missing id from the empty collection
leaves it unchanged. -/
theorem C6_failed_mutations_atomic_witness :
    applyResult ([] : List Task) (deleteTask [] "zz") = [] :=
  ((C6_failed_mutations_atomic [] (TaskFormData.mk "09:00" "T" none) "id1" 0 "zz").2.1
    (by intro t ht; simp at ht)).2

/-- C8 counterexample: a stored empty string exists and is not
deserializable as JSON, yet the load effect reports no error, removes
nothing, and keeps the default, because the source's if (item) guard
treats the falsy empty string like an absent key.  This contradicts the
claim's universal corrupted-value case. -/
theorem C8_counterexample_empty_string :
    (loadFromStorage (0 : Nat) (some "") (fun _ => none) false).error = none ∧
    (loadFromStorage (0 : Nat) (some "") (fun _ => none) false).removedKey = false ∧
    (loadFromStorage (0 : Nat) (some "") (fun _ => none) false).value = 0 :=
  ⟨rfl, rfl, rfl⟩

/-- C8 (amended): for a stored value that exists and is nonempty but cannot
be deserialized, the load effect clears the key and reports the corrupted
message, or reports the inaccessible message without clearing when removal
itself throws, in both cases yielding the default; an absent key, or a
stored empty string, yields the default with no error. -/
theorem C8_load_self_healing (T : Type) (initialValue : T)
    (decode : String → Option T) (removeThrows : Bool) :
    (∀ raw, raw ≠ "" → decode raw = none →
      loadFromStorage initialValue (some raw) decode false =
        ⟨initialValue, some "Data was corrupted and has been reset", true⟩ ∧
      loadFromStorage initialValue (some raw) decode true =
        ⟨initialValue, some "Unable to access localStorage", false⟩) ∧
    loadFromStorage initialValue none decode removeThrows =
      ⟨initialValue, none, false⟩ ∧
    loadFromStorage initialValue (some "") decode removeThrows =
      ⟨initialValue, none, false⟩ := by
  refine ⟨?_, rfl, by simp [loadFromStorage]⟩
  intro raw hraw hdec
  constructor <;> simp [loadFromStorage, hraw, hdec]

/-- Closed instance of C8: corrupted nonempty data is cleared and reported. -/
theorem C8_load_self_healing_witness :
    loadFromStorage (0 : Nat) (some "xyz") (fun _ => none) false =
      ⟨0, some "Data was corrupted and has been reset", true⟩ :=
  ((C8_load_self_healing Nat 0 (fun _ => none) false).1 "xyz" (by decide) rfl).1

/-- C10: validateTitleField returns at most one error for any string input,
and the minimum-length message is unreachable because an empty trimmed
title already returned with the cannot-be-empty message. -/
theorem C10_title_min_length_unreachable (title : String) :
    (validateTitleField title).length ≤ 1 ∧
    (validateTitleField title).all
      (fun e => !(e.message == "Title must be at least 1 character long")) = true := by
  unfold validateTitleField
  by_cases ht : jsTrimStr title = ""
  · simp [ht]
  · have hne : (jsTrimStr title).data ≠ [] := by
      intro hd
      exact ht (String.ext hd)
    have hpos : 0 < (jsTrimStr title).length := List.length_pos.2 hne
    have h1 : ¬ (jsTrimStr title).length < 1 := by omega
    simp only [ht, if_false, reduceIte, h1]
    split_ifs <;> simp

set_option maxRecDepth 10000 in
set_option maxHeartbeats 4000000 in
/-- Exhaustive evaluation of the parser, the validator's time field and the
display formatter on all 1440 canonical times. -/
lemma canonical_facts : ∀ h < 24, ∀ m < 60,
    parseTime (canonicalStr h m) = ⟨true, some (canonicalStr h m), none⟩ ∧
    isValidTimeFormat (canonicalStr h m) = true ∧
    validateTimeField (canonicalStr h m) = [] ∧
    canonicalStr h m ≠ "" ∧
    parseTime (formatTimeForDisplay (canonicalStr h m)) =
      ⟨true, some (canonicalStr h m), none⟩ ∧
    formatTimeForDisplay (canonicalStr h m) =
      Nat.repr (dispHour h) ++ ":" ++ padStart2 m ++ " " ++
        (if 12 ≤ h then "PM" else "AM") ∧
    (padStart2 m).length = 2 := by decide

/-- C3: isValidTimeFormat accepts exactly the canonical zero-padded
24-hour strings, parseTime returns every such string unchanged, and the
two non-canonical but parseable examples are rejected by isValidTimeFormat
while parseTime accepts them. -/
theorem C3_isValidTimeFormat_exactly_canonical (s : String) :
    (isValidTimeFormat s = true ↔
      ∃ hh mm, hh < 24 ∧ mm < 60 ∧ s = canonicalStr hh mm) ∧
    (∀ hh < 24, ∀ mm < 60,
      parseTime (canonicalStr hh mm) = ⟨true, some (canonicalStr hh mm), none⟩) ∧
    isValidTimeFormat "9:30" = false ∧
    isValidTimeFormat "9:30 AM" = false ∧
    (parseTime "9:30").success = true ∧
    (parseTime "9:30 AM").success = true := by
  refine ⟨⟨?_, ?_⟩, ?_, by decide, by decide, by decide, by decide⟩
  · intro hv
    unfold isValidTimeFormat at hv
    split_ifs at hv with hse
    dsimp only at hv
    simp only [Bool.and_eq_true, beq_iff_eq] at hv
    obtain ⟨hsucc, htime⟩ := hv
    obtain ⟨hh, mm, hlt, mlt, heq⟩ := parseTime_success_shape s hsucc
    refine ⟨hh, mm, hlt, mlt, ?_⟩
    rw [heq] at htime
    injection htime with h4
    exact h4.symm
  · rintro ⟨hh, mm, hlt, mlt, rfl⟩
    exact (canonical_facts hh hlt mm mlt).2.1
  · intro hh hlt mm mlt
    exact (canonical_facts hh hlt mm mlt).1

/-- Closed instance of C3: the canonical string 09:30 parses to itself. -/
theorem C3_isValidTimeFormat_exactly_canonical_witness :
    parseTime (canonicalStr 9 30) = ⟨true, some (canonicalStr 9 30), none⟩ :=
  (C3_isValidTimeFormat_exactly_canonical "09:30").2.1 9 (by omega) 30 (by omega)

/-- Both non-time fields of sanitization are the trivial trim and copy. -/
lemma sanitizeTaskFormData_fields (fd : TaskFormData) :
    (sanitizeTaskFormData fd).title = jsTrimStr fd.title ∧
    (sanitizeTaskFormData fd).priority = fd.priority := by
  unfold sanitizeTaskFormData
  dsimp only
  cases hp : parseTime (jsTrimStr fd.time) with
  | mk succ timeo erro =>
    cases succ <;> cases timeo <;> dsimp only
    · exact ⟨rfl, rfl⟩
    · exact ⟨rfl, rfl⟩
    · exact ⟨rfl, rfl⟩
    · split_ifs <;> exact ⟨rfl, rfl⟩

/-- The sanitized time: the parser's canonical output on success, the
trimmed input on failure. -/
lemma sanitizeTaskFormData_time (fd : TaskFormData) :
    ((parseTime (jsTrimStr fd.time)).success = true →
      ∃ t, (parseTime (jsTrimStr fd.time)).time = some t ∧
        (sanitizeTaskFormData fd).time = t) ∧
    ((parseTime (jsTrimStr fd.time)).success = false →
      (sanitizeTaskFormData fd).time = jsTrimStr fd.time) := by
  unfold sanitizeTaskFormData
  dsimp only
  by_cases hsucc : (parseTime (jsTrimStr fd.time)).success = true
  · obtain ⟨hh, mm, hlt, mlt, heq⟩ := parseTime_success_shape _ hsucc
    rw [heq]
    dsimp only
    constructor
    · intro
      refine ⟨canonicalStr hh mm, rfl, ?_⟩
      rw [if_pos (by simp [(canonical_facts hh hlt mm mlt).2.2.2.1])]
    · intro hfail
      exact Bool.noConfusion hfail
  · rw [Bool.not_eq_true] at hsucc
    cases hp : parseTime (jsTrimStr fd.time) with
    | mk succ timeo erro =>
      rw [hp] at hsucc
      dsimp only at hsucc
      subst hsucc
      cases timeo <;> dsimp only <;> exact ⟨fun h => by simp at h, fun _ => rfl⟩

/-- C7: validateAndSanitizeTaskFormData validates the sanitized data (trim
title, trim time and canonicalize it exactly when it parses), isValid is
emptiness of the error list, a parseable padded 12-hour time like
9:30 AM surrounded by spaces sanitizes to 09:30 and passes, and a
malformed time is left as trimmed and fails. -/
theorem C7_sanitize_then_validate (fd : TaskFormData) :
    validateAndSanitizeTaskFormData fd =
      ⟨sanitizeTaskFormData fd, validateTaskFormData (sanitizeTaskFormData fd),
        (validateTaskFormData (sanitizeTaskFormData fd)).length == 0⟩ ∧
    ((validateAndSanitizeTaskFormData fd).isValid = true ↔
      (validateAndSanitizeTaskFormData fd).errors = []) ∧
    (sanitizeTaskFormData fd).title = jsTrimStr fd.title ∧
    (sanitizeTaskFormData fd).priority = fd.priority ∧
    ((parseTime (jsTrimStr fd.time)).success = true →
      ∃ t, (parseTime (jsTrimStr fd.time)).time = some t ∧
        (sanitizeTaskFormData fd).time = t ∧
        validateTimeField (sanitizeTaskFormData fd).time = []) ∧
    ((parseTime (jsTrimStr fd.time)).success = false →
      (sanitizeTaskFormData fd).time = jsTrimStr fd.time ∧
      validateTimeField (sanitizeTaskFormData fd).time ≠ []) ∧
    validateAndSanitizeTaskFormData ⟨"  9:30 AM  ", "Standup", some .medium⟩ =
      ⟨⟨"09:30", "Standup", some .medium⟩, [], true⟩ := by
  refine ⟨rfl, ?_, (sanitizeTaskFormData_fields fd).1,
    (sanitizeTaskFormData_fields fd).2, ?_, ?_, by decide⟩
  · simp [validateAndSanitizeTaskFormData, List.length_eq_zero]
  · intro hsucc
    obtain ⟨t, htime, hset⟩ := (sanitizeTaskFormData_time fd).1 hsucc
    obtain ⟨hh, mm, hlt, mlt, heq⟩ := parseTime_success_shape _ hsucc
    rw [heq] at htime
    injection htime with h4
    subst h4
    refine ⟨canonicalStr hh mm, by rw [heq], hset, ?_⟩
    rw [hset]
    exact (canonical_facts hh hlt mm mlt).2.2.1
  · intro hfail
    have hset := (sanitizeTaskFormData_time fd).2 hfail
    refine ⟨hset, ?_⟩
    rw [hset]
    unfold validateTimeField
    by_cases hemp : jsTrimStr fd.time = "" ∨ jsTrimStr (jsTrimStr fd.time) = ""
    · rw [if_pos (by simpa using hemp)]
      simp
    · rw [if_neg (by simpa using hemp)]
      dsimp only
      rw [if_neg (by simp [hfail])]
      simp

/-- Closed instance of C7: the sanitized time of a parseable input is the
parser's canonical output and passes time validation. -/
theorem C7_sanitize_then_validate_witness :
    ∃ t, (parseTime (jsTrimStr ("  9:30 AM  " : String))).time = some t ∧
      (sanitizeTaskFormData ⟨"  9:30 AM  ", "Standup", some .medium⟩).time = t ∧
      validateTimeField
        (sanitizeTaskFormData ⟨"  9:30 AM  ", "Standup", some .medium⟩).time = [] :=
  (C7_sanitize_then_validate ⟨"  9:30 AM  ", "Standup", some .medium⟩).2.2.2.2.1
    (by decide)

/-- C9: for every canonical time, formatTimeForDisplay produces the
12-hour display string (hour 1 to 12 with no leading zero, two-digit
minutes, AM or PM), parseTime maps it back to exactly the canonical time,
and every input that is not a valid canonical time is returned unchanged. -/
theorem C9_display_round_trip :
    (∀ h < 24, ∀ m < 60,
      parseTime (formatTimeForDisplay (canonicalStr h m)) =
        ⟨true, some (canonicalStr h m), none⟩ ∧
      formatTimeForDisplay (canonicalStr h m) =
        Nat.repr (dispHour h) ++ ":" ++ padStart2 m ++ " " ++
          (if 12 ≤ h then "PM" else "AM") ∧
      1 ≤ dispHour h ∧ dispHour h ≤ 12 ∧ (padStart2 m).length = 2) ∧
    (∀ s, isValidTimeFormat s = false → formatTimeForDisplay s = s) := by
  constructor
  · intro h hlt m mlt
    have hc := canonical_facts h hlt m mlt
    refine ⟨hc.2.2.2.2.1, hc.2.2.2.2.2.1, ?_, ?_, hc.2.2.2.2.2.2⟩
    · unfold dispHour; split_ifs <;> omega
    · unfold dispHour; split_ifs <;> omega
  · intro s hinv
    unfold formatTimeForDisplay
    rw [if_neg (by simp [hinv])]

/-- Closed instance of C9: 13:30 displays as 1:30 PM and parses back. -/
theorem C9_display_round_trip_witness :
    parseTime (formatTimeForDisplay (canonicalStr 13 30)) =
      ⟨true, some (canonicalStr 13 30), none⟩ :=
  (C9_display_round_trip.1 13 (by omega) 30 (by omega)).1

end DayPlanner
